import Mathlib

/-!
Verification of the CoLRev versioned record store against its specification.

The Python sources embedded here are `src/colrev/dataset.py` (class `Dataset`)
and `src/colrev_core/review_dataset.py` (class `ReviewDataset`).  Python
strings are modelled as `List Char` (`Str`) where character-level structure
matters (the ID allocator) and as Lean `String` where identifiers are opaque
tokens (snapshots, origins, file entries).  Python exceptions are modelled by
`Except`; machinery that the sources import from modules that are not part of
the repository snapshot (the `RecordState` enum, `format_author_field`,
`remove_accents`, the bib loader) is modelled from the specification and
marked as such in its doc comment.
-/

namespace Colrev

/-- Python strings, modelled at character granularity. -/
abbrev Str := List Char

/-- Model of Python `str.lower()` (per-character ASCII lowering; the
identifiers handled by the allocator are ASCII). -/
def lowerStr (s : Str) : Str := s.map Char.toLower

/-- Record lifecycle states.  Modelled from the spec: §4.1 lists the state
set of the State Machine (`colrev.record.RecordState` itself is not part of
the repository snapshot under `src/`). -/
inductive RecordState
  | md_retrieved
  | md_imported
  | md_needs_manual_preparation
  | md_prepared
  | md_processed
  | rev_prescreen_excluded
  | rev_prescreen_included
  | pdf_needs_manual_retrieval
  | pdf_imported
  | pdf_not_available
  | pdf_needs_manual_preparation
  | pdf_prepared
  | rev_excluded
  | rev_included
  | rev_synthesized
  deriving DecidableEq, Repr

/-- Modelled from the spec: `post_states(md_processed)` — every state at or
after `md_processed` (§4.1).  This list coincides with the eleven states that
`ReviewDataset.retrieve_data` (review_dataset.py lines 779–791) enumerates
explicitly for the current snapshot's persisted identifiers. -/
def post_md_processed : List RecordState :=
  [.md_processed, .rev_prescreen_excluded, .rev_prescreen_included,
   .pdf_needs_manual_retrieval, .pdf_imported, .pdf_not_available,
   .pdf_needs_manual_preparation, .pdf_prepared, .rev_excluded,
   .rev_included, .rev_synthesized]

/-! ## ID allocator: suffix enumeration (`Dataset._generate_next_unique_id`)

The source keeps a list `appends = itertools.product(ascii_lowercase,
repeat=order)` and pops candidates from its front, increasing `order` when
the list is exhausted.  The resulting global enumeration of suffixes is the
bijective base-26 numbering over `a`..`z`: index 1 ↦ "a", …, 26 ↦ "z",
27 ↦ "aa", …  `rep26` computes that numbering (index 0 ↦ ""). -/

/-- The suffix alphabet, `string.ascii_lowercase` in the source. -/
def asciiLowercase : Str := "abcdefghijklmnopqrstuvwxyz".data

/-- Fuel-based helper for the bijective base-26 numeral (structural
recursion on the fuel, so that the kernel can evaluate it; any fuel `≥ m`
gives the same value). -/
def rep26Aux (fuel m : Nat) : Str :=
  match m, fuel with
  | 0, _ => []
  | _ + 1, 0 => []
  | m + 1, fuel + 1 => rep26Aux fuel (m / 26) ++ [asciiLowercase.getD (m % 26) 'a']

/-- Bijective base-26 numeral of `m` over the alphabet `a`..`z`
(`rep26 0 = ""`, `rep26 1 = "a"`, `rep26 26 = "z"`, `rep26 27 = "aa"`). -/
def rep26 (m : Nat) : Str := rep26Aux m m

theorem rep26Aux_congr : ∀ m fuel1 fuel2, m ≤ fuel1 → m ≤ fuel2 →
    rep26Aux fuel1 m = rep26Aux fuel2 m := by
  intro m
  induction m using Nat.strong_induction_on with
  | _ m ih =>
    intro fuel1 fuel2 h1 h2
    match m, fuel1, fuel2 with
    | 0, _, _ => simp [rep26Aux]
    | m + 1, f1 + 1, f2 + 1 =>
      simp only [rep26Aux]
      have hd : m / 26 < m + 1 := Nat.lt_succ_of_le (Nat.div_le_self m 26)
      rw [ih (m / 26) hd f1 (m / 26) (by omega) (Nat.le_refl _),
        ih (m / 26) hd f2 (m / 26) (by omega) (Nat.le_refl _)]

theorem rep26_zero : rep26 0 = [] := rfl

theorem rep26_succ (m : Nat) :
    rep26 (m + 1) = rep26 (m / 26) ++ [asciiLowercase.getD (m % 26) 'a'] := by
  show rep26Aux m (m / 26) ++ _ = rep26Aux (m / 26) (m / 26) ++ _
  rw [rep26Aux_congr (m / 26) m (m / 26) (Nat.div_le_self m 26) (Nat.le_refl _)]

theorem alphabet_toNat : ∀ k, k < 26 → (asciiLowercase.getD k 'a').toNat = 97 + k := by
  decide

theorem alphabet_toLower : ∀ k, k < 26 → (asciiLowercase.getD k 'a').toLower = asciiLowercase.getD k 'a' := by
  decide

/-- Value of a suffix string read as a bijective base-26 numeral; the
left inverse of `rep26`. -/
def val26 (s : Str) : Nat :=
  s.foldl (fun acc c => 26 * acc + (c.toNat - 96)) 0

/-- The `n`-th candidate tried by the collision-resolution loop of
`Dataset._generate_next_unique_id`: the bare candidate first, then the
candidate extended with the suffix enumeration. -/
def candidateId (temp_id : Str) (n : Nat) : Str := temp_id ++ rep26 n

/-- First index `≥ n` (within `fuel` steps) whose candidate is not
case-insensitively contained in `lowered`; this is the exit index of the
`while next_unique_id.lower() in [i.lower() for i in existing_ids]` loop of
`Dataset._generate_next_unique_id` (dataset.py lines 465–474).  The fuel
`existing_ids.length + 1` used below always suffices because the candidates
are pairwise distinct (theorem `candidate_exists_free`). -/
def firstFreeIdx (temp_id : Str) (lowered : List Str) : Nat → Nat → Nat
  | n, 0 => n
  | n, fuel + 1 =>
    if lowerStr (candidateId temp_id n) ∈ lowered then
      firstFreeIdx temp_id lowered (n + 1) fuel
    else n

/-- Embedding of `Dataset._generate_next_unique_id` (dataset.py lines
457–475): starting from `temp_id`, append lower-case suffixes in the fixed
enumeration order until the candidate no longer collides (case-insensitively)
with `existing_ids`, and return the first collision-free candidate. -/
def generate_next_unique_id (temp_id : Str) (existing_ids : List Str) : Str :=
  candidateId temp_id
    (firstFreeIdx temp_id (existing_ids.map lowerStr) 0 (existing_ids.length + 1))

theorem val26_rep26 : ∀ m, val26 (rep26 m) = m := by
  intro m
  induction m using Nat.strong_induction_on with
  | _ m ih =>
    match m with
    | 0 => rw [rep26_zero]; rfl
    | m + 1 =>
      rw [rep26_succ]
      have hdiv : m / 26 < m + 1 := Nat.lt_succ_of_le (Nat.div_le_self m 26)
      have hv : val26 (rep26 (m / 26)) = m / 26 := ih _ hdiv
      unfold val26 at hv ⊢
      rw [List.foldl_append, hv]
      simp only [List.foldl_cons, List.foldl_nil]
      rw [alphabet_toNat _ (Nat.mod_lt _ (by omega))]
      omega

theorem rep26_injective : Function.Injective rep26 := by
  intro a b h
  have := val26_rep26 a
  rw [h, val26_rep26] at this
  omega

/-- Lowering fixes every character produced by the suffix enumeration. -/
theorem rep26_chars_fixed : ∀ m c, c ∈ rep26 m → c.toLower = c := by
  intro m
  induction m using Nat.strong_induction_on with
  | _ m ih =>
    match m with
    | 0 => intro c hc; rw [rep26_zero] at hc; simp at hc
    | m + 1 =>
      intro c hc
      rw [rep26_succ] at hc
      rcases List.mem_append.mp hc with h | h
      · exact ih _ (Nat.lt_succ_of_le (Nat.div_le_self m 26)) c h
      · have hcEq : c = asciiLowercase.getD (m % 26) 'a' := by simpa using h
        rw [hcEq]
        exact alphabet_toLower _ (Nat.mod_lt _ (by omega))

/-- Lowering fixes the suffix strings (they are already lower-case). -/
theorem lowerStr_rep26 (m : Nat) : lowerStr (rep26 m) = rep26 m := by
  unfold lowerStr
  calc (rep26 m).map Char.toLower = (rep26 m).map id := by
        apply List.map_congr_left
        intro x hx
        exact rep26_chars_fixed m x hx
    _ = rep26 m := List.map_id _

/-- The lowered candidates are pairwise distinct: lowering distributes over
the append and fixes the suffix, and the suffixes are injective. -/
theorem lowered_candidate_injective (t : Str) :
    Function.Injective (fun n => lowerStr (candidateId t n)) := by
  intro a b h
  simp only [candidateId, lowerStr, List.map_append] at h
  have ha := (lowerStr_rep26 a)
  have hb := (lowerStr_rep26 b)
  unfold lowerStr at ha hb
  rw [ha, hb] at h
  exact rep26_injective (List.append_cancel_left h)

/-- Pigeonhole: among the first `bl.length + 1` candidates some candidate is
free of the (lowered) blacklist. -/
theorem candidate_exists_free (t : Str) (bl : List Str) :
    ∃ j, j ≤ bl.length ∧ lowerStr (candidateId t j) ∉ bl.map lowerStr := by
  by_contra hall
  push_neg at hall
  have hsub : ((List.range (bl.length + 1)).map (fun n => lowerStr (candidateId t n)))
      ⊆ bl.map lowerStr := by
    intro x hx
    rcases List.mem_map.mp hx with ⟨n, hn, rfl⟩
    exact hall n (Nat.lt_succ_iff.mp (List.mem_range.mp hn))
  have hnd : ((List.range (bl.length + 1)).map (fun n => lowerStr (candidateId t n))).Nodup :=
    (List.nodup_range _).map_on
      (fun a _ b _ h => lowered_candidate_injective t h)
  have hle := (hnd.subperm hsub).length_le
  simp at hle

/-- Correctness of the bounded search: when a free index exists within the
fuel window, `firstFreeIdx` returns the least free index at or above `n` —
exactly the index at which the source's `while` loop exits. -/
theorem firstFreeIdx_least (t : Str) (lowered : List Str) :
    ∀ fuel n, (∃ j, n ≤ j ∧ j < n + fuel ∧ lowerStr (candidateId t j) ∉ lowered) →
      n ≤ firstFreeIdx t lowered n fuel
      ∧ lowerStr (candidateId t (firstFreeIdx t lowered n fuel)) ∉ lowered
      ∧ ∀ m, n ≤ m → m < firstFreeIdx t lowered n fuel →
          lowerStr (candidateId t m) ∈ lowered := by
  intro fuel
  induction fuel with
  | zero =>
    intro n ⟨j, hnj, hj, _⟩
    omega
  | succ fuel ih =>
    intro n ⟨j, hnj, hj, hfree⟩
    by_cases hcol : lowerStr (candidateId t n) ∈ lowered
    · have hne : j ≠ n := by
        intro h; rw [h] at hfree; exact hfree hcol
      have hex : ∃ j', n + 1 ≤ j' ∧ j' < (n + 1) + fuel ∧
          lowerStr (candidateId t j') ∉ lowered := ⟨j, by omega, by omega, hfree⟩
      have hres := ih (n + 1) hex
      rw [firstFreeIdx, if_pos hcol]
      refine ⟨by omega, hres.2.1, ?_⟩
      intro m hm1 hm2
      by_cases hmn : m = n
      · rw [hmn]; exact hcol
      · exact hres.2.2 m (by omega) hm2
    · rw [firstFreeIdx, if_neg hcol]
      exact ⟨Nat.le_refl _, hcol, by omega⟩

/-- The `n`-th candidate determines `n`. -/
theorem candidateId_injective (t : Str) : Function.Injective (candidateId t) := by
  intro a b h
  unfold candidateId at h
  exact rep26_injective (List.append_cancel_left h)

/-- C4: collision detection in `Dataset._generate_next_unique_id` is
case-insensitive; on collision the allocator walks the fixed suffix
enumeration `a`..`z`, `aa`..`zz`, … and returns the first candidate not in
the blacklist; the returned identifier is never (case-insensitively) in the
blacklist, and a collision-free candidate is returned unchanged. -/
theorem C4_unique_id_allocation (temp_id : Str) (existing_ids : List Str) :
    lowerStr (generate_next_unique_id temp_id existing_ids) ∉ existing_ids.map lowerStr
    ∧ (lowerStr temp_id ∉ existing_ids.map lowerStr →
        generate_next_unique_id temp_id existing_ids = temp_id)
    ∧ ∃ n, generate_next_unique_id temp_id existing_ids = candidateId temp_id n
        ∧ ∀ m, m < n → lowerStr (candidateId temp_id m) ∈ existing_ids.map lowerStr := by
  obtain ⟨j, hj, hfree⟩ := candidate_exists_free temp_id existing_ids
  have hex : ∃ j', 0 ≤ j' ∧ j' < 0 + (existing_ids.length + 1) ∧
      lowerStr (candidateId temp_id j') ∉ existing_ids.map lowerStr :=
    ⟨j, Nat.zero_le _, by omega, hfree⟩
  have hres := firstFreeIdx_least temp_id (existing_ids.map lowerStr)
    (existing_ids.length + 1) 0 hex
  refine ⟨hres.2.1, ?_, ?_⟩
  · intro hnc
    unfold generate_next_unique_id
    have h0 : firstFreeIdx temp_id (existing_ids.map lowerStr) 0
        (existing_ids.length + 1) = 0 := by
      by_contra hne
      have := hres.2.2 0 (Nat.le_refl 0) (Nat.pos_of_ne_zero hne)
      rw [show candidateId temp_id 0 = temp_id by
        unfold candidateId; rw [rep26_zero, List.append_nil]] at this
      exact hnc this
    rw [h0]
    unfold candidateId
    rw [rep26_zero, List.append_nil]
  · exact ⟨_, rfl, fun m hm => hres.2.2 m (Nat.zero_le _) hm⟩

/-- Witness for C4: a blacklist-free candidate is returned unchanged. -/
theorem C4_unique_id_allocation_witness :
    generate_next_unique_id ("Smith2020".data) [("Jones2019".data)] = "Smith2020".data :=
  (C4_unique_id_allocation ("Smith2020".data) [("Jones2019".data)]).2.1 (by decide)

/-- C10: the collision-resolution loop terminates — the suffix enumeration
yields pairwise-distinct candidates, so within the first
`existing_ids.length + 1` indices some candidate is free of the finite
blacklist, and `generate_next_unique_id` returns the candidate at the first
free index (the exit point of the source's unbounded `while` loop). -/
theorem C10_collision_loop_terminates (temp_id : Str) (existing_ids : List Str) :
    (∀ a b : Nat, a ≠ b → candidateId temp_id a ≠ candidateId temp_id b)
    ∧ ∃ n, n ≤ existing_ids.length
        ∧ lowerStr (candidateId temp_id n) ∉ existing_ids.map lowerStr
        ∧ generate_next_unique_id temp_id existing_ids = candidateId temp_id n
        ∧ ∀ m, m < n → lowerStr (candidateId temp_id m) ∈ existing_ids.map lowerStr := by
  obtain ⟨j, hj, hfree⟩ := candidate_exists_free temp_id existing_ids
  have hex : ∃ j', 0 ≤ j' ∧ j' < 0 + (existing_ids.length + 1) ∧
      lowerStr (candidateId temp_id j') ∉ existing_ids.map lowerStr :=
    ⟨j, Nat.zero_le _, by omega, hfree⟩
  have hres := firstFreeIdx_least temp_id (existing_ids.map lowerStr)
    (existing_ids.length + 1) 0 hex
  refine ⟨fun a b hne heq => hne (candidateId_injective temp_id heq), _, ?_, hres.2.1, rfl,
    fun m hm => hres.2.2 m (Nat.zero_le _) hm⟩
  by_contra hgt
  push_neg at hgt
  have : j < firstFreeIdx temp_id (existing_ids.map lowerStr) 0 (existing_ids.length + 1) := by
    omega
  exact hfree (hres.2.2 j (Nat.zero_le _) this)

/-- Witness for C10: two distinct indices give distinct candidates. -/
theorem C10_collision_loop_terminates_witness :
    candidateId ("Smith2020".data) 0 ≠ candidateId ("Smith2020".data) 1 :=
  (C10_collision_loop_terminates ("Smith2020".data) []).1 0 1 (by decide)

/-- Spec §8 suffix-ordering example: colliding with `Smith2020` yields
`Smith2020a`. -/
theorem suffix_ordering_example :
    generate_next_unique_id ("Smith2020".data) [("Smith2020".data)]
      = "Smith2020a".data := by decide

/-! ## ID allocator: temp-id synthesis (`Dataset._generate_temp_id`) -/

/-- Checks whether `pre` is a prefix of `s` (used for substring matching). -/
def leadsWith : Str → Str → Bool
  | [], _ => true
  | _ :: _, [] => false
  | a :: as, b :: bs => a == b && leadsWith as bs

/-- Fuel-based worker for `splitOnSub` (Python `str.split(sep)` with a
non-empty separator, splitting left to right on non-overlapping
occurrences). -/
def splitOnAux (sep : Str) : Str → Str → Nat → List Str
  | s, acc, 0 => [acc.reverse ++ s]
  | [], acc, _ + 1 => [acc.reverse]
  | c :: rest, acc, fuel + 1 =>
    if leadsWith sep (c :: rest) then
      acc.reverse :: splitOnAux sep ((c :: rest).drop sep.length) [] fuel
    else splitOnAux sep rest (c :: acc) fuel

/-- Model of Python `s.split(sep)` for a non-empty separator. -/
def splitOnSub (sep s : Str) : List Str := splitOnAux sep s [] (s.length + 1)

/-- Modelled from the spec: `PrepRecord.format_author_field` is not under
`src/`; §4.4 step 2 describes the allocator as parsing the author/editor
string directly (split on `" and "`, family names per author), so the
formatting helper is modelled as the identity. -/
def format_author_field (s : Str) : Str := s

/-- Modelled from the spec: "strip accents" (`colrev.env.utils.remove_accents`
is not under `src/`); modelled as a per-character base-letter mapping on
common accented letters and the identity elsewhere. -/
def stripAccentChar (c : Char) : Char :=
  if c == 'á' || c == 'à' || c == 'â' || c == 'ä' then 'a'
  else if c == 'é' || c == 'è' || c == 'ê' || c == 'ë' then 'e'
  else if c == 'í' || c == 'ì' || c == 'î' || c == 'ï' then 'i'
  else if c == 'ó' || c == 'ò' || c == 'ô' || c == 'ö' then 'o'
  else if c == 'ú' || c == 'ù' || c == 'û' || c == 'ü' then 'u'
  else if c == 'ñ' then 'n'
  else if c == 'ç' then 'c'
  else if c == 'Á' || c == 'À' || c == 'Â' || c == 'Ä' then 'A'
  else if c == 'É' || c == 'È' || c == 'Ê' || c == 'Ë' then 'E'
  else if c == 'Ö' then 'O'
  else if c == 'Ü' then 'U'
  else c

/-- Modelled from the spec: accent stripping of the synthesized id. -/
def remove_accents (s : Str) : Str := s.map stripAccentChar

/-- Index of the first occurrence of `c` in `s`. -/
def firstIdxOf (c : Char) : Str → Option Nat
  | [] => none
  | x :: xs => if x == c then some 0 else (firstIdxOf c xs).map (· + 1)

/-- Index of the last occurrence of `c` in `s`. -/
def lastIdxOf (c : Char) (s : Str) : Option Nat :=
  (firstIdxOf c s.reverse).map (fun k => s.length - 1 - k)

/-- Model of `re.sub(r"\(.*\)", "", s)` (dataset.py line 452): the greedy
leftmost match runs from the first `(` to the last `)` when the latter comes
after the former, and after its removal no further match is possible (the
prefix holds no `(`, the suffix no `)`). -/
def stripParen (s : Str) : Str :=
  match firstIdxOf '(' s, lastIdxOf ')' s with
  | some i, some j => if i < j then s.take i ++ s.drop (j + 1) else s
  | _, _ => s

/-- Model of Python `str.isupper()`: at least one cased character and no
lower-case cased character (cased = ASCII letter in this model). -/
def pyIsUpper (s : Str) : Bool :=
  s.any (fun c => c.isAlpha) && s.all (fun c => !c.isAlpha || c.isUpper)

/-- Model of Python `str.capitalize()`: first character upper-cased, the
rest lower-cased. -/
def pyCapitalize : Str → Str
  | [] => []
  | c :: cs => c.toUpper :: lowerStr cs

/-- The configured identifier pattern (`colrev.settings.IDPattern`). -/
inductive IDPattern
  | first_author_year
  | three_authors_year
  deriving DecidableEq, Repr

/-- The slice of a record that `Dataset._generate_id` and `Dataset.set_ids`
read and write: identifier, status, and the fields feeding the synthesis. -/
structure RecordDict where
  id : Str
  status : RecordState
  author : Option Str
  editor : Option Str
  year : Option Str
  deriving DecidableEq, Repr

/-- Allocator environment: force mode and curated flag from the review
manager settings, the configured pattern, and the external curated index
(`local_index.retrieve`, returning the indexed identifier when the record is
found). -/
structure AllocConfig where
  force_mode : Bool
  is_curated : Bool
  id_pattern : IDPattern
  localIndex : RecordDict → Option Str

/-- Author list computation of `Dataset._generate_temp_id` (dataset.py lines
415–423): the author field, else the editor field, else `"Anonymous"`,
formatted and split on `" and "`. -/
def authorsOf (rec : RecordDict) : List Str :=
  if (rec.author.getD (rec.editor.getD [])).isEmpty then
    [("Anonymous".data)]
  else
    splitOnSub (" and ".data) (format_author_field (rec.author.getD (rec.editor.getD ("Anonymous".data))))

/-- Python `record_dict.get(Fields.YEAR, "NoYear")`. -/
def yearStrOf (rec : RecordDict) : Str := rec.year.getD ("NoYear".data)

/-- Python `a.split(",")[0]`. -/
def beforeComma (a : Str) : Str := a.takeWhile (fun c => !(c == ','))

/-- Python `s.replace(" ", "")`. -/
def removeSpaces (s : Str) : Str := s.filter (fun c => !(c == ' '))

/-- The family-name computation performed — and discarded — by the loop at
dataset.py lines 426–430: the loop rebinds its iteration variable without
writing the result back into `authors`, so this value never reaches the
synthesized identifier. -/
def familyNameOf (a : Str) : Str :=
  if a.contains ',' then beforeComma a else a.takeWhile (fun c => !(c == ' '))

/-- The synthesized identifier before normalization (dataset.py lines
432–445): pattern-dependent concatenation of `split(",")[0].replace(" ","")`
over the authors and the year. -/
def synthRawId (cfg : AllocConfig) (rec : RecordDict) : Str :=
  let authors := authorsOf rec
  match cfg.id_pattern with
  | .first_author_year =>
    removeSpaces (beforeComma (authors.headD [])) ++ yearStrOf rec
  | .three_authors_year =>
    ((authors.take 3).foldl (fun acc a => acc ++ removeSpaces (beforeComma a)) [])
      ++ (if authors.length > 3 then "EtAl".data else [])
      ++ yearStrOf rec

/-- The capitalize-if-all-upper step (dataset.py lines 447–448). -/
def capIfUpper (s : Str) : Str := if pyIsUpper s then pyCapitalize s else s

/-- Embedding of the synthesis branch of `Dataset._generate_temp_id`
(dataset.py lines 415–453), line by line: author parsing, pattern-dependent
concatenation, then `isupper`/`capitalize`, accent stripping, parenthetical
stripping and removal of non-alphanumeric characters — in the source's
order. -/
def synthTempId (cfg : AllocConfig) (rec : RecordDict) : Str :=
  let authors := authorsOf rec
  let temp1 :=
    match cfg.id_pattern with
    | .first_author_year =>
      removeSpaces (beforeComma (authors.headD [])) ++ yearStrOf rec
    | .three_authors_year =>
      ((authors.take 3).foldl (fun acc a => acc ++ removeSpaces (beforeComma a)) [])
        ++ (if authors.length > 3 then "EtAl".data else [])
        ++ yearStrOf rec
  let temp2 := if pyIsUpper temp1 then pyCapitalize temp1 else temp1
  let temp3 := remove_accents temp2
  let temp4 := stripParen temp3
  temp4.filter Char.isAlphanum

/-- Embedding of `Dataset._generate_temp_id` (dataset.py lines 398–455):
adopt the curated-index identifier verbatim when the lookup succeeds and the
project is not itself curated; otherwise synthesize. -/
def generate_temp_id (cfg : AllocConfig) (rec : RecordDict) : Str :=
  match cfg.localIndex rec with
  | some indexed => if cfg.is_curated then synthTempId cfg rec else indexed
  | none => synthTempId cfg rec

/-- The normalization pipeline in the order the specification states it
(§4.4 step 3): strip accents, strip the parenthetical, remove every
character outside `[0-9a-zA-Z]`, and only then test the result for being
all upper-case and capitalize it.  Defined for comparison with the source's
order. -/
def normalize_spec_order (s : Str) : Str :=
  let a := remove_accents s
  let b := stripParen a
  let c := b.filter Char.isAlphanum
  if pyIsUpper c then pyCapitalize c else c

/-- A plain allocator configuration: no force mode, not curated,
`first_author_year`, empty curated index. -/
def cfgPlain : AllocConfig := ⟨false, false, IDPattern.first_author_year, fun _ => none⟩

/-- Concrete record for the author-parsing claim: an author written
`"John Smith"` (no comma). -/
def recJohnSmith : RecordDict :=
  ⟨"TMP".data, RecordState.md_imported, some ("John Smith".data), none, some ("2020".data)⟩

/-- C6: the spec says an author without a comma contributes its first
space-delimited token (`"John Smith"` ↦ `"John"`), and the loop at
dataset.py lines 426–430 computes exactly that — but it rebinds its
iteration variable without storing the result, so the synthesized identifier
is built from `authors[ind].split(",")[0].replace(" ", "")` instead: the
record yields `JohnSmith2020`, not the `John2020` the claim requires. -/
theorem C6_family_name_loop_discarded :
    generate_temp_id cfgPlain recJohnSmith = "JohnSmith2020".data
    ∧ familyNameOf ("John Smith".data) = "John".data
    ∧ generate_temp_id cfgPlain recJohnSmith ≠ ("John2020".data) := by
  decide

/-- Concrete record for the normalization-order claim: its synthesized raw
identifier is `"AB(c)"`, on which the two normalization orders disagree. -/
def recABc : RecordDict :=
  ⟨"TMP".data, RecordState.md_imported, some ("AB".data), none, some ("(c)".data)⟩

/-- Counterexample to C7: the source tests `isupper()` (and capitalizes)
BEFORE stripping accents/parentheticals and filtering, not after.  On the
synthesized identifier `"AB(c)"` the code's order yields `"AB"` (the
lower-case `c` inside the parenthetical blocks `isupper()`), while the
claimed order — normalize first, then capitalize-if-upper — yields
`"Ab"`. -/
theorem C7_counterexample :
    synthRawId cfgPlain recABc = "AB(c)".data
    ∧ generate_temp_id cfgPlain recABc = "AB".data
    ∧ normalize_spec_order ("AB(c)".data) = "Ab".data
    ∧ generate_temp_id cfgPlain recABc
        ≠ normalize_spec_order (synthRawId cfgPlain recABc) := by
  decide

/-- C7 (amended): the normalization of the synthesized identifier applies
the all-upper-case test and capitalization FIRST, to the raw synthesized
identifier, and then — in the stated order — strips accents, strips the
`"(...)"` parenthetical and removes every character outside `[0-9a-zA-Z]`;
the two orders genuinely differ. -/
theorem C7_normalization_order (cfg : AllocConfig) (rec : RecordDict) :
    synthTempId cfg rec
      = List.filter Char.isAlphanum (stripParen (remove_accents (capIfUpper (synthRawId cfg rec))))
    ∧ ∃ s, List.filter Char.isAlphanum (stripParen (remove_accents (capIfUpper s)))
        ≠ normalize_spec_order s := by
  constructor
  · rfl
  · exact ⟨"AB(c)".data, by decide⟩

/-- Witness for C7's amended theorem at a concrete configuration and
record. -/
theorem C7_normalization_order_witness :
    synthTempId cfgPlain recABc
      = List.filter Char.isAlphanum (stripParen (remove_accents (capIfUpper (synthRawId cfgPlain recABc)))) :=
  (C7_normalization_order cfgPlain recABc).1

/-! ## `Dataset._generate_id` and `Dataset.set_ids` -/

/-- The exception raised by `Dataset._generate_id` when the record's status
is already in `post_states(md_processed)`
(`colrev_exceptions.PropagatedIDChange`, carrying the offending ids). -/
inductive AllocError
  | propagatedIDChange (ids : List Str)
  deriving DecidableEq, Repr

/-- Embedding of `Dataset._generate_id` (dataset.py lines 489–518): raise
`PropagatedIDChange` when the record's status is in
`post_states(md_processed)`; otherwise synthesize the temp id and, when the
blacklist is non-empty (Python truthiness of `existing_ids`), resolve
collisions. -/
def generate_id (cfg : AllocConfig) (rec : RecordDict) (existing_ids : List Str) :
    Except AllocError Str :=
  if rec.status ∈ post_md_processed then
    .error (.propagatedIDChange [rec.id])
  else
    let temp_id := generate_temp_id cfg rec
    .ok (if existing_ids.isEmpty then temp_id
         else generate_next_unique_id temp_id existing_ids)

/-- Python-dict lookup `records[rid]` on the insertion-ordered store. -/
def store_get (store : List RecordDict) (rid : Str) : Option RecordDict :=
  store.find? (fun r => r.id == rid)

/-- Python-dict assignment `records[r.id] = r`: overwrite in place when the
key exists, append otherwise. -/
def store_set (store : List RecordDict) (r : RecordDict) : List RecordDict :=
  if store.any (fun x => x.id == r.id) then
    store.map (fun x => if x.id == r.id then r else x)
  else store ++ [r]

/-- Python-dict deletion `del records[rid]`. -/
def store_del (store : List RecordDict) (rid : Str) : List RecordDict :=
  store.filter (fun x => !(x.id == rid))

/-- One-per-key loop of `Dataset.set_ids` (dataset.py lines 537–582) over
the snapshot of the store's keys.  Each iteration: skip keys outside
`selected_ids`; skip records whose status is not `md_imported`/`md_prepared`
unless force mode is on; when `selected_ids` is truthy, generate with the
status temporarily set to `md_prepared` (the stored record keeps its own
status); a `PropagatedIDChange` raised by `_generate_id` is caught and only
printed (source lines 581–582), leaving the record unchanged; on a changed
id, re-key the record and update the id list. -/
def set_ids_loop (cfg : AllocConfig) (selected : Option (List Str)) :
    List Str → List Str → List RecordDict → List RecordDict
  | [], _, store => store
  | rid :: rest, idList, store =>
    match store_get store rid with
    | none => set_ids_loop cfg selected rest idList store
    | some rec =>
      let skipSel := match selected with
        | some l => !(l.contains rid)
        | none => false
      if skipSel then set_ids_loop cfg selected rest idList store
      else
        let skipStatus :=
          !(rec.status == RecordState.md_imported || rec.status == RecordState.md_prepared)
            && !cfg.force_mode
        if skipStatus then set_ids_loop cfg selected rest idList store
        else
          let juggle := match selected with
            | some (_ :: _) => true
            | _ => false
          let recG := if juggle then { rec with status := RecordState.md_prepared } else rec
          match generate_id cfg recG (idList.filter (fun x => !(x == rid))) with
          | .error _ => set_ids_loop cfg selected rest idList store
          | .ok new_id =>
            let idList2 := idList ++ [new_id]
            if new_id == rid then set_ids_loop cfg selected rest idList2 store
            else
              let store2 := store_del (store_set store { rec with id := new_id }) rid
              set_ids_loop cfg selected rest (idList2.erase rid) store2

/-- Embedding of `Dataset.set_ids` (dataset.py lines 520–587) on an
explicitly passed record store.  The result is always `Except.ok`: the only
exception raised inside the per-record loop (`PropagatedIDChange` from
`_generate_id`) is caught by the loop body and printed, never re-raised
(source lines 581–582); the `Except` return type records which errors could
propagate to the caller. -/
def set_ids (cfg : AllocConfig) (records : List RecordDict)
    (selected_ids : Option (List Str)) : Except AllocError (List RecordDict) :=
  .ok (set_ids_loop cfg selected_ids (records.map (fun r => r.id))
        (records.map (fun r => r.id)) records)

/-- States in `post_states(md_processed)` are neither `md_imported` nor
`md_prepared`, so `set_ids` filters such records out before id generation. -/
theorem post_states_skip : ∀ s ∈ post_md_processed,
    (s == RecordState.md_imported || s == RecordState.md_prepared) = false := by
  decide

/-- With force mode off and no selection, a store all of whose records have
a status in `post_states(md_processed)` passes through the loop unchanged. -/
theorem set_ids_loop_all_post (cfg : AllocConfig) (records : List RecordDict)
    (hforce : cfg.force_mode = false)
    (hall : ∀ r ∈ records, r.status ∈ post_md_processed) :
    ∀ keys idList, set_ids_loop cfg none keys idList records = records := by
  intro keys
  induction keys with
  | nil => intro idList; rfl
  | cons rid rest ih =>
    intro idList
    rw [set_ids_loop]
    cases hget : store_get records rid with
    | none => exact ih idList
    | some rec =>
      have hmem : rec ∈ records := List.mem_of_find?_eq_some hget
      have hpost := hall rec hmem
      simp only [post_states_skip rec.status hpost, hforce]
      exact ih idList

/-- A record whose identifier is frozen: status `rev_included`, which lies
in `post_states(md_processed)`. -/
def recFrozen : RecordDict :=
  ⟨"X".data, RecordState.rev_included, some ("Smith, J.".data), none, some ("2020".data)⟩

/-- Counterexample to C1: calling `set_ids` on a store holding a record with
status `rev_included` does NOT raise `PropagatedIdChangeError` to the
caller — the call completes normally and returns the record unchanged.  The
status filter at dataset.py lines 543–551 skips the record before
`_generate_id` can raise, and even when `_generate_id` does raise (force
mode), the loop catches the exception and merely prints it (lines
581–582). -/
theorem C1_counterexample_no_raise :
    set_ids cfgPlain [recFrozen] none = Except.ok [recFrozen] := by
  rfl

/-- C1 (amended): `set_ids` never propagates `PropagatedIdChangeError` to
the caller.  A record whose status is in `post_states(md_processed)` is
skipped by the status filter (with force mode off and no selection), so a
store consisting of such records is returned — and re-saved — entirely
unchanged; the internal `_generate_id` does raise `PropagatedIDChange` on
every such record, but `set_ids` catches that exception instead of failing
fast. -/
theorem C1_set_ids_skips_frozen (cfg : AllocConfig) (records : List RecordDict)
    (hforce : cfg.force_mode = false)
    (hall : ∀ r ∈ records, r.status ∈ post_md_processed) :
    set_ids cfg records none = Except.ok records
    ∧ ∀ r ∈ records, ∀ existing,
        generate_id cfg r existing = Except.error (AllocError.propagatedIDChange [r.id]) := by
  constructor
  · unfold set_ids
    rw [set_ids_loop_all_post cfg records hforce hall]
  · intro r hr existing
    unfold generate_id
    rw [if_pos (hall r hr)]

/-- Witness for C1's amended theorem at a concrete frozen record. -/
theorem C1_set_ids_skips_frozen_witness :
    set_ids cfgPlain [recFrozen] none = Except.ok [recFrozen]
    ∧ generate_id cfgPlain recFrozen []
        = Except.error (AllocError.propagatedIDChange [recFrozen.id]) := by
  have h := C1_set_ids_skips_frozen cfgPlain [recFrozen] rfl (by decide)
  exact ⟨h.1, h.2 recFrozen (by decide) []⟩

/-! ## History iteration (`Dataset.load_records_from_history`) -/

/-- A commit of the versioned-blob backend, carrying the records-file blob
at that commit.  The blob is represented by the record mapping it parses to
(the parser `colrev.ops.load_utils.loads` is not under `src/`; the
Serializer of spec §4.2 is modelled as this identity).  Commit lists are
ordered the way `git_repo.iter_commits()` yields them: NEWEST FIRST. -/
structure HistCommit where
  hexsha : String
  blob : List (String × String)
  deriving DecidableEq, Repr

/-- The yield step of the loop body: the parsed records dict is yielded
whenever it is non-empty (`if records_dict: yield records_dict`). -/
def yieldAt (c : HistCommit) : List (List (String × String)) :=
  if c.blob.isEmpty then [] else [c.blob]

/-- The commit loop of `Dataset.load_records_from_history` (dataset.py
lines 169–191): when a `commit_sha` is given, commits are skipped until it
is reached (`reached`); from then on — and from the very start when no sha
is given — EVERY commit's records file is read and parsed, with no check
that the blob changed (the source passes no `paths=` filter to
`iter_commits`). -/
def historyWalk (commit_sha : String) : Bool → List HistCommit → List (List (String × String))
  | _, [] => []
  | reached, c :: rest =>
    if !(commit_sha == "") && !reached then
      if !(commit_sha == c.hexsha) then historyWalk commit_sha reached rest
      else yieldAt c ++ historyWalk commit_sha true rest
    else yieldAt c ++ historyWalk commit_sha reached rest

/-- Embedding of `Dataset.load_records_from_history` (dataset.py lines
151–191); `commit_sha = ""` is the source's unset default. -/
def load_records_from_history (commits : List HistCommit) (commit_sha : String) :
    List (List (String × String)) :=
  historyWalk commit_sha false commits

/-- C5 (behaviour of the code at the failing input): the function's own
docstring promises to skip commits where the records file is unchanged, and
the claim additionally requires an oldest→newest walk; but on a two-commit
history whose records blob is IDENTICAL in both commits the iterator yields
the same parse twice, and on distinct blobs it yields the newest commit's
parse first. -/
theorem C5_history_walks_all_commits_newest_first :
    load_records_from_history
        [⟨"c2", [("A", "bodyA")]⟩, ⟨"c1", [("A", "bodyA")]⟩] ""
      = [[("A", "bodyA")], [("A", "bodyA")]]
    ∧ load_records_from_history
        [⟨"c2", [("A", "v2")]⟩, ⟨"c1", [("A", "v1")]⟩] ""
      = [[("A", "v2")], [("A", "v1")]] := by
  exact ⟨rfl, rfl⟩

/-! ## Loading (`Dataset.load_records_dict`) -/

/-- The parsed form of a stored record: status, origins, and the remaining
body (opaque here). -/
structure FileRecord where
  status : RecordState
  origin : List String
  body : String
  deriving DecidableEq, Repr

/-- The `Dataset` state that `load_records_dict` consults: the review
manager's notified-next-operation field and the records file (`none` when
the file does not exist), represented by the mapping it parses to. -/
structure DatasetS where
  notified_next_operation : Option String
  records_file : Option (List (String × FileRecord))

/-- The exception `colrev_exceptions.ReviewManagerNotNotifiedError`. -/
inductive LoadError
  | notNotified
  deriving DecidableEq, Repr

/-- Result of a load: a header-only mapping or the full mapping. -/
inductive LoadResult
  | headers (items : List (String × List String × RecordState))
  | full (records : List (String × FileRecord))
  deriving DecidableEq, Repr

/-- Modelled from the spec: the header projection (§4.2 `extract_header`)
of the parsed records file (the `BIBLoader` is not under `src/`). -/
def headerItemsOf (f : List (String × FileRecord)) :
    List (String × List String × RecordState) :=
  f.map (fun p => (p.1, p.2.origin, p.2.status))

/-- Embedding of `Dataset.load_records_dict` (dataset.py lines 193–235):
the notified-next-operation guard is checked FIRST, before any access to the
records file; then either the header-only or the full parse is returned
(an absent file parses to the empty mapping). -/
def load_records_dict (st : DatasetS) (header_only : Bool) :
    Except LoadError LoadResult :=
  if st.notified_next_operation.isNone then .error .notNotified
  else if header_only then
    .ok (.headers (headerItemsOf (st.records_file.getD [])))
  else
    match st.records_file with
    | some f => .ok (.full f)
    | none => .ok (.full [])

/-- C8: for every call to `load_records_dict` (header-only or not), an unset
notified-next-operation field makes the call fail with
`NotNotifiedError` — with a result independent of the records file, i.e.
without reading the store — while a declared intent never produces that
error. -/
theorem C8_load_requires_notification (n : Option String)
    (f f' : Option (List (String × FileRecord))) (header_only : Bool) :
    (n = none →
      load_records_dict ⟨n, f⟩ header_only = Except.error LoadError.notNotified
      ∧ load_records_dict ⟨n, f⟩ header_only = load_records_dict ⟨n, f'⟩ header_only)
    ∧ (n ≠ none → ∃ r, load_records_dict ⟨n, f⟩ header_only = Except.ok r) := by
  constructor
  · intro hn
    subst hn
    exact ⟨rfl, rfl⟩
  · intro hn
    match n with
    | none => exact absurd rfl hn
    | some op =>
      cases header_only with
      | true => exact ⟨.headers (headerItemsOf (f.getD [])), rfl⟩
      | false =>
        cases f with
        | some ff => exact ⟨.full ff, rfl⟩
        | none => exact ⟨.full [], rfl⟩

/-- Witness for C8 at a concrete dataset state. -/
theorem C8_load_requires_notification_witness :
    load_records_dict ⟨none, some []⟩ true = Except.error LoadError.notNotified
    ∧ ∃ r, load_records_dict ⟨some "prep", some []⟩ false = Except.ok r :=
  ⟨((C8_load_requires_notification none (some []) (some []) true).1 rfl).1,
   (C8_load_requires_notification (some "prep") (some []) (some []) false).2
     (Option.some_ne_none "prep")⟩

/-! ## Partial save (`Dataset._save_record_list_by_id`) -/

/-- A rendered entry of the records file: the entry identifier (taken from
the `@…{id,` line) and the rendered entry text. -/
structure BibEntry where
  id : String
  body : String
  deriving DecidableEq, Repr

/-- The file walk of `Dataset._save_record_list_by_id` (dataset.py lines
269–303), one step per entry of the existing file: when the entry's id
matches a pending input record, the entry's byte span is replaced by that
record's rendered text and the record is dropped from the pending list
(`record_list = [x for x in record_list if x["ID"] != current_id_str]`);
otherwise the entry is left untouched.  Returns the rewritten file and the
pending records that matched no entry. -/
def saveWalk : List BibEntry → List BibEntry → List BibEntry × List BibEntry
  | [], remaining => ([], remaining)
  | e :: file, remaining =>
    match remaining.find? (fun r => r.id == e.id) with
    | some repl =>
      let res := saveWalk file (remaining.filter (fun r => !(r.id == e.id)))
      (repl :: res.1, res.2)
    | none =>
      let res := saveWalk file remaining
      (e :: res.1, res.2)

/-- Embedding of `Dataset._save_record_list_by_id` (dataset.py lines
253–316): walk the file replacing matched entries; leftover records are
appended only when `append_new` is true, and otherwise are only reported via
the error log (`records not written to file: …`) — the returned `List
String` holds the logged identifiers. -/
def save_record_list_by_id (file records : List BibEntry) (append_new : Bool) :
    List BibEntry × List String :=
  let res := saveWalk file records
  if res.2.isEmpty then (res.1, [])
  else if append_new then (res.1 ++ res.2, [])
  else (res.1, res.2.map (fun r => r.id))

/-- The `partial=True` path of `Dataset.save_records_dict` (dataset.py lines
318–326), which calls `_save_record_list_by_id` with its default
`append_new=False`. -/
def save_records_dict_partial_path (file records : List BibEntry) :
    List BibEntry × List String :=
  save_record_list_by_id file records false

/-- The walk preserves the file's identifier sequence. -/
theorem saveWalk_ids : ∀ (file rem : List BibEntry),
    (saveWalk file rem).1.map (fun e => e.id) = file.map (fun e => e.id) := by
  intro file
  induction file with
  | nil => intro rem; rfl
  | cons e file ih =>
    intro rem
    rw [saveWalk]
    cases hf : rem.find? (fun r => r.id == e.id) with
    | some repl =>
      have hid : repl.id = e.id := by
        have := List.find?_some hf
        exact eq_of_beq this
      simp only [List.map_cons, hid, ih]
    | none =>
      simp only [List.map_cons, ih]

/-- Entries whose identifier matches no pending record are kept verbatim. -/
theorem saveWalk_keeps : ∀ (file rem : List BibEntry), ∀ e ∈ file,
    (∀ r ∈ rem, r.id ≠ e.id) → e ∈ (saveWalk file rem).1 := by
  intro file
  induction file with
  | nil => intro rem e he; exact absurd he (List.not_mem_nil e)
  | cons e0 file ih =>
    intro rem e he hno
    rw [saveWalk]
    cases hf : rem.find? (fun r => r.id == e0.id) with
    | some repl =>
      rcases List.mem_cons.mp he with rfl | hmem
      · exfalso
        have hrepl := List.mem_of_find?_eq_some hf
        have := List.find?_some hf
        exact hno repl hrepl (eq_of_beq this)
      · apply List.mem_cons_of_mem
        apply ih _ e hmem
        intro r hr
        exact hno r (List.mem_of_mem_filter hr)
    | none =>
      rcases List.mem_cons.mp he with rfl | hmem
      · exact List.mem_cons_self _ _
      · exact List.mem_cons_of_mem _ (ih rem e hmem hno)

/-- Pending records whose identifier occurs nowhere in the file end up in
the leftover list. -/
theorem saveWalk_leftover : ∀ (file rem : List BibEntry), ∀ r ∈ rem,
    r.id ∉ file.map (fun e => e.id) → r ∈ (saveWalk file rem).2 := by
  intro file
  induction file with
  | nil => intro rem r hr _; exact hr
  | cons e0 file ih =>
    intro rem r hr hno
    have hne : r.id ≠ e0.id := by
      intro h
      apply hno
      rw [List.map_cons, h]
      exact List.mem_cons_self _ _
    have hno' : r.id ∉ file.map (fun e => e.id) := by
      intro h
      exact hno (List.mem_cons_of_mem _ h)
    rw [saveWalk]
    cases hf : rem.find? (fun x => x.id == e0.id) with
    | some repl =>
      apply ih _ r _ hno'
      apply List.mem_filter.mpr
      exact ⟨hr, by simp [hne]⟩
    | none =>
      exact ih rem r hr hno'

/-- C9: the partial-save path never adds a new entry to the records file —
its identifier sequence is unchanged; entries whose identifier is not among
the input records are kept verbatim; and an input record whose identifier
does not occur in the file is not written at all: it is only reported in the
error log, and its identifier is absent from the resulting file. -/
theorem C9_partial_save_frame (file records : List BibEntry) :
    (save_records_dict_partial_path file records).1.map (fun e => e.id)
      = file.map (fun e => e.id)
    ∧ (∀ e ∈ file, (∀ r ∈ records, r.id ≠ e.id) →
        e ∈ (save_records_dict_partial_path file records).1)
    ∧ (∀ r ∈ records, r.id ∉ file.map (fun e => e.id) →
        r.id ∈ (save_records_dict_partial_path file records).2
        ∧ r.id ∉ (save_records_dict_partial_path file records).1.map (fun e => e.id)) := by
  have hfst : (save_records_dict_partial_path file records).1 = (saveWalk file records).1 := by
    unfold save_records_dict_partial_path save_record_list_by_id
    by_cases h : (saveWalk file records).2.isEmpty <;> simp [h]
  refine ⟨?_, ?_, ?_⟩
  · rw [hfst]; exact saveWalk_ids file records
  · intro e he hno
    rw [hfst]
    exact saveWalk_keeps file records e he hno
  · intro r hr hno
    have hleft : r ∈ (saveWalk file records).2 := saveWalk_leftover file records r hr hno
    have hnonempty : (saveWalk file records).2.isEmpty = false := by
      cases hsnd : (saveWalk file records).2 with
      | nil => rw [hsnd] at hleft; exact absurd hleft (List.not_mem_nil r)
      | cons a l => rfl
    constructor
    · unfold save_records_dict_partial_path save_record_list_by_id
      simp only [hnonempty, Bool.false_eq_true, if_false]
      exact List.mem_map.mpr ⟨r, hleft, rfl⟩
    · rw [hfst, saveWalk_ids]
      exact hno

/-- Witness for C9: a one-entry file and an input record with a fresh
identifier — the file keeps exactly its entry and the fresh record is only
logged. -/
theorem C9_partial_save_frame_witness :
    (save_records_dict_partial_path [⟨"A", "a1"⟩] [⟨"B", "b1"⟩]).1.map (fun e => e.id) = ["A"]
    ∧ (⟨"A", "a1"⟩ : BibEntry) ∈ (save_records_dict_partial_path [⟨"A", "a1"⟩] [⟨"B", "b1"⟩]).1
    ∧ "B" ∈ (save_records_dict_partial_path [⟨"A", "a1"⟩] [⟨"B", "b1"⟩]).2
    ∧ "B" ∉ (save_records_dict_partial_path [⟨"A", "a1"⟩] [⟨"B", "b1"⟩]).1.map (fun e => e.id) := by
  have h := C9_partial_save_frame [⟨"A", "a1"⟩] [⟨"B", "b1"⟩]
  have h3 := h.2.2 ⟨"B", "b1"⟩ (List.mem_cons_self _ _) (by simp)
  exact ⟨h.1.trans (by rfl),
    h.2.1 ⟨"A", "a1"⟩ (List.mem_cons_self _ _) (by simp),
    h3.1, by simpa using h3.2⟩

/-! ## Consistency checks (`ReviewDataset`, review_dataset.py) -/

/-- Concatenation of the per-element lists (the nested `for … append`
pattern of the source). -/
def flatList {α β : Type} (f : α → List β) : List α → List β
  | [] => []
  | a :: as => f a ++ flatList f as

theorem mem_flatList {α β : Type} (f : α → List β) :
    ∀ (l : List α) (b : β), b ∈ flatList f l ↔ ∃ a ∈ l, b ∈ f a := by
  intro l b
  induction l with
  | nil => simp [flatList]
  | cons a as ih =>
    simp only [flatList, List.mem_append, ih, List.mem_cons]
    constructor
    · rintro (h | ⟨a', ha', hb⟩)
      · exact ⟨a, Or.inl rfl, h⟩
      · exact ⟨a', Or.inr ha', hb⟩
    · rintro ⟨a', rfl | ha', hb⟩
      · exact Or.inl hb
      · exact Or.inr ⟨a', ha', hb⟩

/-- Python substring test `sub in hay` for strings. -/
def hasSubChars (needle : Str) : Str → Bool
  | [] => leadsWith needle []
  | c :: rest => leadsWith needle (c :: rest) || hasSubChars needle rest

/-- Python `sub in hay` on `String`. -/
def strIn (sub hay : String) : Bool := hasSubChars sub.data hay.data

/-- Python `s.endswith(suffixStr)`. -/
def strEndsWith (s sfx : String) : Bool := leadsWith sfx.data.reverse s.data.reverse

/-- Python `s.lstrip()`. -/
def lstripChars (s : Str) : Str := s.dropWhile Char.isWhitespace

/-- The id extraction `line[line.find("{") + 1 : line.rfind(",")].lstrip()`
of `ReviewDataset.retrieve_IDs_from_bib` (review_dataset.py line 944), on
the well-formed `@…{id,` lines the store-file contract guarantees (Python's
`find`/`rfind` `-1` defaults are mapped to a degenerate slice). -/
def extractBibId (line : String) : String :=
  let s := line.data
  let start := match firstIdxOf '{' s with
    | some i => i + 1
    | none => 0
  let stop := match lastIdxOf ',' s with
    | some j => j
    | none => s.length - 1
  String.mk (lstripChars ((s.take stop).drop start))

/-- Embedding of `ReviewDataset.retrieve_IDs_from_bib` (review_dataset.py
lines 937–947): ids of the lines carrying `@` within their first five
characters. -/
def retrieve_IDs_from_bib (lines : List String) : List String :=
  lines.filterMap (fun line =>
    if (line.data.take 5).contains '@' then some (extractBibId line) else none)

/-- One file of the project tree as seen by the propagated-id scan: the
directory it sits in, its name, and its text lines.  The model covers one
`os.walk` level, flattened. -/
structure PFile where
  root : String
  name : String
  lines : List String
  deriving DecidableEq, Repr

/-- The project tree scanned by `check_propagated_IDs`: files and
directories. -/
structure PTree where
  files : List PFile
  dirs : List (String × String)
  deriving DecidableEq, Repr

/-- The `ignore_patterns` of `ReviewDataset.check_propagated_IDs`. -/
def ignorePatterns : List String :=
  [".git", "config.ini", "report.log", ".pre-commit-config.yaml"]

/-- The `text_formats` of `ReviewDataset.check_propagated_IDs`. -/
def textFormats : List String := [".txt", ".csv", ".md", ".bib", ".yaml"]

/-- Notification emitted for a filepath still carrying the old id. -/
def msgFilepath (prior_id new_id name : String) : String :=
  "Old ID (" ++ prior_id ++ ", changed to " ++ new_id
    ++ " in the MAIN_REFERENCES) found in filepath: " ++ name

/-- Notification emitted for a bib file still carrying the old id. -/
def msgBibFile (prior_id new_id name : String) : String :=
  "Old ID (" ++ prior_id ++ ", changed to " ++ new_id
    ++ " in the MAIN_REFERENCES) found in file: " ++ name

/-- Notification emitted per matching line of a non-bib text file. -/
def msgContentFile (prior_id new_id name : String) : String :=
  "Old ID (" ++ prior_id ++ ", to " ++ new_id
    ++ " in the MAIN_REFERENCES) found in file: " ++ name

/-- Per-file step of `ReviewDataset.check_propagated_IDs` (review_dataset.py
lines 1186–1220): skip ignored paths; flag names containing the old id; then
scan only the text formats — bib files via their extracted id list, other
text files line by line (one notification per matching line). -/
def fileNotes (prior_id new_id : String) (f : PFile) : List String :=
  if ignorePatterns.any (fun x => strIn x f.name || strIn x f.root) then []
  else
    (if strIn prior_id f.name then [msgFilepath prior_id new_id f.name] else [])
    ++ (if !(textFormats.any (fun x => strEndsWith f.name x)) then []
        else if strEndsWith f.name ".bib" then
          (if (retrieve_IDs_from_bib f.lines).contains prior_id then
            [msgBibFile prior_id new_id f.name]
          else [])
        else
          f.lines.filterMap (fun line =>
            if strIn prior_id line then
              some (msgContentFile prior_id new_id f.name)
            else none))

/-- Per-directory step of `ReviewDataset.check_propagated_IDs`
(review_dataset.py lines 1221–1228). -/
def dirNotes (prior_id new_id : String) (d : String × String) : List String :=
  if ignorePatterns.any (fun x => strIn x d.2 || strIn x d.1) then []
  else if strIn prior_id d.2 then [msgFilepath prior_id new_id d.2] else []

/-- Embedding of `ReviewDataset.check_propagated_IDs` (review_dataset.py
lines 1175–1229): the notifications for every file and directory of the
project tree still referencing the old identifier. -/
def check_propagated_IDs (tree : PTree) (prior_id new_id : String) : List String :=
  flatList (fileNotes prior_id new_id) tree.files
    ++ flatList (dirNotes prior_id new_id) tree.dirs

/-- A record of a store snapshot as the checks read it: identifier, origins
and status.  An absent origin line parses to the string `"NA"` in the
source; `originsOf` reproduces that. -/
structure SnapRecord where
  id : String
  origins : List String
  status : RecordState
  deriving DecidableEq, Repr

/-- The origin list the source obtains from `origin.split(";")` (the
literal `["NA"]` when the record has no origin line). -/
def originsOf (r : SnapRecord) : List String :=
  if r.origins.isEmpty then ["NA"] else r.origins

/-- The prior-snapshot data gathered by `ReviewDataset.retrieve_prior`. -/
structure PriorData where
  statusList : List (String × RecordState)
  persisted : List (String × String)
  deriving DecidableEq, Repr

/-- Embedding of `ReviewDataset.retrieve_prior` (review_dataset.py lines
875–916): per record and per origin, the `(origin, status)` pairs; the
persisted `(origin, id)` pairs are collected ONLY for records whose prior
status is exactly `md_processed` (line 904:
`if str(RecordState.md_processed) == status`). -/
def retrieve_prior (recs : List SnapRecord) : PriorData :=
  ⟨flatList (fun r => (originsOf r).map (fun o => (o, r.status))) recs,
   flatList (fun r =>
     if r.status = RecordState.md_processed then
       (originsOf r).map (fun o => (o, r.id))
     else []) recs⟩

/-- The `persisted_IDs` of the CURRENT snapshot per
`ReviewDataset.retrieve_data` (review_dataset.py lines 779–793): the
`(origin, id)` pairs of every record whose status is `md_processed` or any
later state. -/
def persistedCurrent (recs : List SnapRecord) : List (String × String) :=
  flatList (fun r =>
    if r.status ∈ post_md_processed then
      (originsOf r).map (fun o => (o, r.id))
    else []) recs

/-- The `entries_without_origin` of `ReviewDataset.retrieve_data`. -/
def entriesWithoutOrigin (recs : List SnapRecord) : List String :=
  recs.filterMap (fun r => if r.origins.isEmpty then some r.id else none)

/-- The `record_links_in_bib` of `ReviewDataset.retrieve_data`. -/
def recordLinksInBib (recs : List SnapRecord) : List String :=
  flatList (fun r => if r.origins.isEmpty then [] else r.origins) recs

/-- The `origin_list` (`[ID, origin]` pairs) of
`ReviewDataset.retrieve_data`. -/
def originList (recs : List SnapRecord) : List (String × String) :=
  flatList (fun r => (originsOf r).map (fun o => (r.id, o))) recs

/-- The error taxonomy raised by the embedded checks (`OriginError` and
`PropagatedIDChange` of review_dataset.py). -/
inductive CheckErr
  | originError (msg : String)
  | propagatedIDChange (notes : List String)
  deriving DecidableEq, Repr

/-- The loop of `ReviewDataset.check_persisted_ID_changes` (review_dataset.py
lines 1234–1246) over the prior persisted `(origin, id)` pairs: a prior
origin absent from the current persisted origins raises
`OriginError("origin removed: …")`; a present origin whose current owner id
differs raises `PropagatedIDChange` carrying the project-tree scan's
notifications plus a summary line; otherwise the loop continues. -/
def persistedLoop (tree : PTree) (dataPersisted : List (String × String)) :
    List (String × String) → Except CheckErr Unit
  | [] => .ok ()
  | (porig, pid) :: rest =>
    if porig ∈ dataPersisted.map Prod.fst then
      match dataPersisted.find? (fun e => e.1 == porig && !(e.2 == pid)) with
      | some e =>
        .error (.propagatedIDChange (check_propagated_IDs tree pid e.2
          ++ ["ID of processed record changed from " ++ pid ++ " to " ++ e.2]))
      | none => persistedLoop tree dataPersisted rest
    else .error (.originError ("origin removed: " ++ porig))

/-- Embedding of `ReviewDataset.check_persisted_ID_changes` (review_dataset.py
lines 1231–1247).  The source's `"persisted_IDs" not in prior` early return
cannot trigger here because `retrieve_prior` always populates the field. -/
def check_persisted_ID_changes (tree : PTree) (prior : PriorData)
    (dataPersisted : List (String × String)) : Except CheckErr Unit :=
  persistedLoop tree dataPersisted prior.persisted

/-- Embedding of `ReviewDataset.check_main_references_origin`
(review_dataset.py lines 966–1018): missing origins, broken origins and
non-unique origins each raise `OriginError`; the removed-origins check that
the specification ascribes to this function is commented out in the source
(lines 995–1017), so the function ends successfully after the three checks. -/
def check_main_references_origin (searchFiles : List (String × List String))
    (recs : List SnapRecord) : Except CheckErr Unit :=
  if !(entriesWithoutOrigin recs).isEmpty then
    .error (.originError ("Entries without origin: "
      ++ String.intercalate ", " (entriesWithoutOrigin recs)))
  else
    let allLinks := flatList (fun p => p.2.map (fun x => p.1 ++ "/" ++ x)) searchFiles
    let delta := (recordLinksInBib recs).filter (fun o => !(allLinks.contains o))
    if !delta.isEmpty then
      .error (.originError ("broken origins: " ++ String.intercalate ", " delta))
    else
      let origins := (originList recs).map Prod.snd
      match (originList recs).find? (fun p => origins.count p.2 > 1) with
      | some p => .error (.originError ("Non-unique origin: origin=\"" ++ p.2 ++ "\""))
      | none => .ok ()

/-- The empty project tree (no files, no directories). -/
def treeEmpty : PTree := ⟨[], []⟩

/-- If some prior persisted origin is absent from the current persisted
origins, the persisted-id loop cannot succeed. -/
theorem persistedLoop_missing_ne_ok (tree : PTree) (dataP : List (String × String)) :
    ∀ (priorList : List (String × String)) (o : String),
      (∃ pid, (o, pid) ∈ priorList) → o ∉ dataP.map Prod.fst →
      persistedLoop tree dataP priorList ≠ Except.ok () := by
  intro priorList
  induction priorList with
  | nil =>
    intro o hex _
    obtain ⟨pid, hmem⟩ := hex
    exact absurd hmem (List.not_mem_nil _)
  | cons hd rest ih =>
    intro o hex hno
    obtain ⟨pid, hmem⟩ := hex
    obtain ⟨porig, pid'⟩ := hd
    rw [persistedLoop]
    by_cases hin : porig ∈ dataP.map Prod.fst
    · rw [if_pos hin]
      rcases List.mem_cons.mp hmem with heq | hrest
      · exfalso
        injection heq with h1 h2
        exact hno (h1 ▸ hin)
      · cases hf : dataP.find? (fun e => e.1 == porig && !(e.2 == pid')) with
        | some e => simp only [hf]; exact fun h => Except.noConfusion h
        | none => simp only [hf]; exact ih o ⟨pid, hrest⟩ hno
    · rw [if_neg hin]
      exact fun h => Except.noConfusion h

/-- If some prior persisted origin is owned by a different identifier in the
current persisted pairs, the persisted-id loop cannot succeed. -/
theorem persistedLoop_changed_ne_ok (tree : PTree) (dataP : List (String × String)) :
    ∀ (priorList : List (String × String)) (o pid nid : String),
      (o, pid) ∈ priorList → (o, nid) ∈ dataP → nid ≠ pid →
      persistedLoop tree dataP priorList ≠ Except.ok () := by
  intro priorList
  induction priorList with
  | nil => intro o pid nid hmem _ _; exact absurd hmem (List.not_mem_nil _)
  | cons hd rest ih =>
    intro o pid nid hmem hdata hne
    obtain ⟨porig, pid'⟩ := hd
    rw [persistedLoop]
    by_cases hin : porig ∈ dataP.map Prod.fst
    · rw [if_pos hin]
      cases hf : dataP.find? (fun e => e.1 == porig && !(e.2 == pid')) with
      | some e => simp only [hf]; exact fun h => Except.noConfusion h
      | none =>
        simp only [hf]
        rcases List.mem_cons.mp hmem with heq | hrest
        · exfalso
          injection heq with h1 h2
          have hall := List.find?_eq_none.mp hf (o, nid) hdata
          apply hall
          subst h1
          subst h2
          simp [hne]
        · exact ih o pid nid hrest hdata hne
    · rw [if_neg hin]
      exact fun h => Except.noConfusion h

/-- Origins of a prior record whose status is exactly `md_processed` appear
in `retrieve_prior`'s persisted pairs, keyed by the record's identifier. -/
theorem mem_retrieve_prior_persisted (recs : List SnapRecord) (r : SnapRecord)
    (o : String) (hr : r ∈ recs) (hst : r.status = RecordState.md_processed)
    (ho : o ∈ originsOf r) :
    (o, r.id) ∈ (retrieve_prior recs).persisted := by
  show (o, r.id) ∈ flatList _ recs
  apply (mem_flatList _ recs _).mpr
  refine ⟨r, hr, ?_⟩
  rw [if_pos hst]
  exact List.mem_map.mpr ⟨o, ho, rfl⟩

/-- Counterexample to C2: an origin recorded in the prior snapshot with
status `md_imported` (before `md_processed`) disappears entirely from the
current snapshot, yet both `check_persisted_ID_changes` and
`check_main_references_origin` succeed — the checker only protects origins
whose prior status was exactly `md_processed` (the removed-origins check of
`check_main_references_origin` is commented out in the source, and the
source itself notes "this does not catch origins removed before
md_processed"). -/
theorem C2_counterexample_early_origin_removed :
    check_persisted_ID_changes treeEmpty
        (retrieve_prior [⟨"R1", ["a.bib/Y"], RecordState.md_imported⟩])
        (persistedCurrent []) = Except.ok ()
    ∧ check_main_references_origin [("a.bib", ["Y"])] [] = Except.ok ()
    ∧ (retrieve_prior [⟨"R1", ["a.bib/Y"], RecordState.md_imported⟩]).statusList
        = [("a.bib/Y", RecordState.md_imported)] :=
  ⟨rfl, rfl, rfl⟩

/-- C2 (amended): only origins whose PRIOR status was exactly `md_processed`
are protected against disappearance.  For such an origin, absence from the
current snapshot's persisted origins makes `check_persisted_ID_changes`
fail, and when the missing origin heads the persisted list the error is
`OriginError` naming it (`origin removed: …`); origins at any other prior
status — earlier or later than `md_processed` — can disappear without any
error. -/
theorem C2_origin_removed_check :
    (∀ (tree : PTree) (priorRecs currentRecs : List SnapRecord) (o pid : String),
      (o, pid) ∈ (retrieve_prior priorRecs).persisted →
      o ∉ (persistedCurrent currentRecs).map Prod.fst →
      check_persisted_ID_changes tree (retrieve_prior priorRecs)
        (persistedCurrent currentRecs) ≠ Except.ok ())
    ∧ (∀ (tree : PTree) (dataP : List (String × String)) (o pid : String)
        (rest : List (String × String)),
      o ∉ dataP.map Prod.fst →
      persistedLoop tree dataP ((o, pid) :: rest)
        = Except.error (CheckErr.originError ("origin removed: " ++ o))) := by
  constructor
  · intro tree priorRecs currentRecs o pid h1 h2
    exact persistedLoop_missing_ne_ok tree _ _ o ⟨pid, h1⟩ h2
  · intro tree dataP o pid rest hno
    rw [persistedLoop, if_neg hno]

/-- Witness for C2's amended theorem: the spec's own scenario — prior origin
`a.bib/X` at `md_processed`, current snapshot omits it. -/
theorem C2_origin_removed_check_witness :
    check_persisted_ID_changes treeEmpty
        (retrieve_prior [⟨"R1", ["a.bib/X"], RecordState.md_processed⟩])
        (persistedCurrent []) ≠ Except.ok ()
    ∧ persistedLoop treeEmpty [] [("a.bib/X", "R1")]
        = Except.error (CheckErr.originError ("origin removed: " ++ "a.bib/X")) := by
  constructor
  · exact C2_origin_removed_check.1 treeEmpty
      [⟨"R1", ["a.bib/X"], RecordState.md_processed⟩] [] "a.bib/X" "R1"
      (by decide) (by decide)
  · exact C2_origin_removed_check.2 treeEmpty [] "a.bib/X" "R1" [] (by decide)

/-- Counterexample to C3: an origin whose PRIOR status is `rev_included` —
which lies in `post_states(md_processed)` — changes its owning identifier
from `R1` to `R2` between the snapshots, yet `check_persisted_ID_changes`
succeeds: `retrieve_prior` collects persisted pairs only for prior status
exactly `md_processed` (review_dataset.py line 904), so identifier stability
is not enforced for the later states the claim quantifies over. -/
theorem C3_counterexample_late_id_change :
    check_persisted_ID_changes treeEmpty
        (retrieve_prior [⟨"R1", ["a.bib/X"], RecordState.rev_included⟩])
        (persistedCurrent [⟨"R2", ["a.bib/X"], RecordState.rev_included⟩])
      = Except.ok ()
    ∧ (retrieve_prior [⟨"R1", ["a.bib/X"], RecordState.rev_included⟩]).statusList
        = [("a.bib/X", RecordState.rev_included)]
    ∧ persistedCurrent [⟨"R2", ["a.bib/X"], RecordState.rev_included⟩]
        = [("a.bib/X", "R2")]
    ∧ RecordState.rev_included ∈ post_md_processed :=
  ⟨rfl, rfl, rfl, by decide⟩

/-- C3 (amended): identifier stability is enforced exactly for origins whose
PRIOR status was `md_processed`: if such an origin is owned by a different
identifier among the current persisted pairs, `check_persisted_ID_changes`
fails; and when that origin heads the lists the error is
`PropagatedIDChange` carrying the project-tree scan's notifications for the
old identifier (files outside the ignore list whose name contains it, plus
text-format files whose content contains it) and a summary line.  Origins
whose prior status was any later state are not checked. -/
theorem C3_persisted_id_stability :
    (∀ (tree : PTree) (priorRecs currentRecs : List SnapRecord) (r : SnapRecord)
        (o nid : String),
      r ∈ priorRecs → r.status = RecordState.md_processed → o ∈ originsOf r →
      (o, nid) ∈ persistedCurrent currentRecs → nid ≠ r.id →
      check_persisted_ID_changes tree (retrieve_prior priorRecs)
        (persistedCurrent currentRecs) ≠ Except.ok ())
    ∧ (∀ (tree : PTree) (o pid nid : String), nid ≠ pid →
      persistedLoop tree [(o, nid)] [(o, pid)]
        = Except.error (CheckErr.propagatedIDChange (check_propagated_IDs tree pid nid
            ++ ["ID of processed record changed from " ++ pid ++ " to " ++ nid]))) := by
  constructor
  · intro tree priorRecs currentRecs r o nid hr hst ho hdata hne
    exact persistedLoop_changed_ne_ok tree _ _ o r.id nid
      (mem_retrieve_prior_persisted priorRecs r o hr hst ho) hdata hne
  · intro tree o pid nid hne
    rw [persistedLoop]
    rw [if_pos (show o ∈ [(o, nid)].map Prod.fst by simp)]
    have hfind : List.find? (fun e => e.1 == o && !(e.2 == pid)) [(o, nid)] = some (o, nid) := by
      apply List.find?_cons_of_pos
      simp [hne]
    rw [hfind]

/-- Witness for C3's amended theorem: prior origin `a.bib/X` at
`md_processed` owned by `R1`, currently owned by `R2`. -/
theorem C3_persisted_id_stability_witness :
    check_persisted_ID_changes treeEmpty
        (retrieve_prior [⟨"R1", ["a.bib/X"], RecordState.md_processed⟩])
        (persistedCurrent [⟨"R2", ["a.bib/X"], RecordState.md_processed⟩])
      ≠ Except.ok ()
    ∧ persistedLoop treeEmpty [("a.bib/X", "R2")] [("a.bib/X", "R1")]
        = Except.error (CheckErr.propagatedIDChange (check_propagated_IDs treeEmpty "R1" "R2"
            ++ ["ID of processed record changed from " ++ "R1" ++ " to " ++ "R2"])) := by
  constructor
  · exact C3_persisted_id_stability.1 treeEmpty
      [⟨"R1", ["a.bib/X"], RecordState.md_processed⟩]
      [⟨"R2", ["a.bib/X"], RecordState.md_processed⟩]
      ⟨"R1", ["a.bib/X"], RecordState.md_processed⟩ "a.bib/X" "R2"
      (List.mem_cons_self _ _) rfl (by decide) (by decide) (by decide)
  · exact C3_persisted_id_stability.2 treeEmpty "a.bib/X" "R1" "R2" (by decide)
